import Mathlib

/-!
Shallow embedding of the progressive-overload calculation engine of
`progoverloadcalc`:

* `src/lib/zones.ts` — training-zone presets and classification predicates;
* `src/lib/rpe_progression.ts` — the RPE %1RM table, the two 1RM
  estimators, and the load-from-baseline computation;
* `src/app/api/calculate/route.ts` — the POST pipeline (`planNextSession`)
  that selects a top set per exercise, computes the baseline, plans and
  adjusts the next load and rounds it in pounds.

Numbers are embedded as rationals (`ℚ`).  JavaScript `Math.round` is
`jsRound` below (`Math.round x = ⌊x + 1/2⌋` for every finite `x`).  The
engine's division is embedded as rational division; the single divergence
(JS `x / 0 = ±Infinity`, rational `x / 0 = 0`) is never hit by any theorem
in this file, whose concrete inputs all have non-zero denominators.
`Number(x.toFixed(d))` is abstracted as rounding half-up at `10^-d`, and
the `new Date()` clock read of the route is an explicit `today` parameter.
-/

/-- JavaScript `Math.round`: round half toward positive infinity. -/
def jsRound (q : ℚ) : ℤ := ⌊q + 1/2⌋

/-- `Number(x.toFixed(2))` (ties abstracted as half-up). -/
def toFixed2 (q : ℚ) : ℚ := (jsRound (q * 100) : ℚ) / 100

/-- `Number(x.toFixed(1))` (ties abstracted as half-up). -/
def toFixed1 (q : ℚ) : ℚ := (jsRound (q * 10) : ℚ) / 10

/-! ### zones.ts -/

inductive TrainingGoal where
  | STRENGTH
  | HYPERTROPHY
  | ENDURANCE
deriving DecidableEq, Repr

/-- Zone preset record (`interface ZonePreset`). -/
structure ZonePreset where
  low : ℚ
  high : ℚ
  defaultReps : ℚ
  targetRIR : ℚ
  sets : ℕ
  restTime : String
deriving DecidableEq, Repr

/-- `ZONE_PRESETS` of zones.ts. -/
def ZONE_PRESETS : TrainingGoal → ZonePreset
  | .STRENGTH =>
      { low := 1, high := 5, defaultReps := 3, targetRIR := 2, sets := 3,
        restTime := "2 minutes 30 seconds" }
  | .HYPERTROPHY =>
      { low := 6, high := 12, defaultReps := 8, targetRIR := 2, sets := 3,
        restTime := "1 minute 30 seconds" }
  | .ENDURANCE =>
      { low := 12, high := 20, defaultReps := 15, targetRIR := 2, sets := 3,
        restTime := "45 seconds" }

/-- `clampToZoneReps(zone, targetReps?)`; `!targetReps` is falsy for
`undefined` (`none`) and for `0`. -/
def clampToZoneReps (zone : TrainingGoal) (targetReps : Option ℚ) : ℚ :=
  let preset := ZONE_PRESETS zone
  match targetReps with
  | none => preset.defaultReps
  | some t => if t = 0 then preset.defaultReps else max preset.low (min preset.high t)

/-- `isInTopOfRange(reps, RIR, zone)`. -/
def isInTopOfRange (reps RIR : ℚ) (zone : TrainingGoal) : Bool :=
  let preset := ZONE_PRESETS zone
  decide (reps ≥ preset.high) && decide (RIR ≤ preset.targetRIR)

/-- `isBelowRange(reps, RIR, zone)`. -/
def isBelowRange (reps RIR : ℚ) (zone : TrainingGoal) : Bool :=
  let preset := ZONE_PRESETS zone
  decide (reps < preset.low) || decide (RIR > preset.targetRIR + 1)

/-! ### rpe_progression.ts -/

/-- Association-list lookup (JS `Map.get`); table keys are inserted once
and never mutated, so insertion order is the iteration order. -/
def lookupQ {α : Type} (k : ℚ) : List (ℚ × α) → Option α
  | [] => none
  | (k', v) :: rest => if k = k' then some v else lookupQ k rest

/-- `NSCA_BASE_ROW`. -/
def NSCA_BASE_ROW : List (ℚ × ℚ) :=
  [(10, 100), (9.5, 97.8), (9, 95.5), (8.5, 93.9),
   (8, 92.2), (7.5, 90.7), (7, 89.2), (6.5, 87.8)]

/-- `RPE_TABLE`: reps (1–12) × RPE (6.5–10) → %1RM. -/
def RPE_TABLE : List (ℚ × List (ℚ × ℚ)) :=
  [ (1, [(10, 100), (9.5, 97.8), (9, 95.5), (8.5, 93.9),
         (8, 92.2), (7.5, 90.7), (7, 89.2), (6.5, 87.8)]),
    (2, [(10, 95.5), (9.5, 93.9), (9, 92.2), (8.5, 90.7),
         (8, 89.2), (7.5, 87.8), (7, 86.4), (6.5, 85)]),
    (3, [(10, 92.2), (9.5, 90.7), (9, 89.2), (8.5, 87.8),
         (8, 86.4), (7.5, 85), (7, 83.7), (6.5, 82.4)]),
    (4, [(10, 89.2), (9.5, 87.8), (9, 86.4), (8.5, 85),
         (8, 83.7), (7.5, 82.4), (7, 81.1), (6.5, 79.8)]),
    (5, [(10, 86.3), (9.5, 85), (9, 83.7), (8.5, 82.4),
         (8, 81.1), (7.5, 79.9), (7, 78.6), (6.5, 77.4)]),
    (6, [(10, 83.7), (9.5, 82.4), (9, 81.1), (8.5, 79.9),
         (8, 78.6), (7.5, 77.4), (7, 76.2), (6.5, 75.1)]),
    (7, [(10, 81.1), (9.5, 79.9), (9, 78.6), (8.5, 77.4),
         (8, 76.2), (7.5, 75.1), (7, 73.9), (6.5, 72.3)]),
    (8, [(10, 78.6), (9.5, 77.4), (9, 76.2), (8.5, 75.1),
         (8, 73.9), (7.5, 72.3), (7, 70.7), (6.5, 69.4)]),
    (9, [(10, 76.2), (9.5, 75.1), (9, 73.9), (8.5, 72.3),
         (8, 70.7), (7.5, 69.4), (7, 68), (6.5, 66.7)]),
    (10, [(10, 73.9), (9.5, 72.3), (9, 70.7), (8.5, 69.4),
          (8, 68), (7.5, 66.7), (7, 65.3), (6.5, 64)]),
    (11, [(10, 70.7), (9.5, 69.4), (9, 68), (8.5, 66.7),
          (8, 65.3), (7.5, 64), (7, 62.6), (6.5, 61.3)]),
    (12, [(10, 68), (9.5, 66.7), (9, 65.3), (8.5, 64),
          (8, 62.6), (7.5, 61.3), (7, 59.9), (6.5, 58.6)]) ]

/-- Insert into a descending-sorted list; building block for
`Array.from(keys()).sort((a, b) => b - a)`. -/
def insertDesc (x : ℚ) : List ℚ → List ℚ
  | [] => [x]
  | y :: ys => if y < x then x :: y :: ys else y :: insertDesc x ys

/-- `keys.sort((a, b) => b - a)`: numeric descending sort. -/
def sortDesc (l : List ℚ) : List ℚ := l.foldr insertDesc []

/-- The nearest-key scan shared by `e1rmPerceived` and
`getPercentFromRPETable`: start from the first key, update when the
distance is strictly smaller (`diff < minDiff`). -/
def foldBest (q b : ℚ) (l : List ℚ) : ℚ :=
  l.foldl (fun best k => if |q - k| < |q - best| then k else best) b

/-- `closestRPE` search over the sorted key list (the loop re-visits the
first element, a no-op since its distance is not strictly smaller). -/
def closestRPEKey (clamped : ℚ) (keys : List ℚ) : Option ℚ :=
  match keys with
  | [] => none
  | k0 :: _ => some (foldBest clamped k0 keys)

/-- `e1rmPerformance(weight, reps, RIR) = weight × (1 + (reps + RIR) / 30)`. -/
def e1rmPerformance (weight reps RIR : ℚ) : ℚ :=
  weight * (1 + (reps + RIR) / 30)

/-- Rep clamp of `getPercentFromRPETable`:
`Math.max(1, Math.min(12, Math.round(reps)))`. -/
def clampReps (reps : ℚ) : ℚ := max 1 (min 12 (jsRound reps : ℚ))

/-- The RPE clamp `Math.max(6.5, Math.min(10, RPE))`, written identically
in `e1rmPerceived` and `getPercentFromRPETable`. -/
def clampRPE (RPE : ℚ) : ℚ := max 6.5 (min 10 RPE)

/-- `e1rmPerceived(weight, reps, RIR, baseRow, perRirDropPct)`.  The
function's locals are inlined: `RPE = 10 − RIR`; `clampedRPE = clampRPE
RPE`; `availableRPEs` is the descending key sort; `basePercent` is the
nearest-key lookup with its `?? 100` default; `additionalReps =
max(0, reps − 1)`; `adjustedPercent = basePercent − additionalReps ×
perRirDropPct`; result `weight / adjustedPercent × 100`. -/
def e1rmPerceived (weight reps RIR : ℚ) (baseRow : List (ℚ × ℚ))
    (perRirDropPct : ℚ) : ℚ :=
  weight /
    ((match closestRPEKey (clampRPE (10 - RIR)) (sortDesc (baseRow.map Prod.fst)) with
      | none => 100
      | some k => (lookupQ k baseRow).getD 100) -
     max 0 (reps - 1) * perRirDropPct) * 100

/-- `getPercentFromRPETable(reps, RPE)` with its 75 fallbacks; the
function's locals `clampedReps`/`clampedRPE`/`availableRPEs` are the
inlined `clampReps reps`, `clampRPE RPE` and `sortDesc (… keys …)`. -/
def getPercentFromRPETable (reps RPE : ℚ) : ℚ :=
  match lookupQ (clampReps reps) RPE_TABLE with
  | none => 75
  | some repsMap =>
    match closestRPEKey (clampRPE RPE) (sortDesc (repsMap.map Prod.fst)) with
    | none => 75
    | some k => (lookupQ k repsMap).getD 75

/-- `loadFromBaselineUsingPercent(baseline1RM, targetReps, targetRIR,
roundIncrement)`.  Locals inlined: `targetRPE = 10 − targetRIR`;
`basePercent` is the table lookup; `loadKg = baseline1RM × basePercent /
100`; result `Math.round(loadKg / roundIncrement) × roundIncrement`. -/
def loadFromBaselineUsingPercent (baseline1RM targetReps targetRIR
    roundIncrement : ℚ) : ℚ :=
  (jsRound (baseline1RM * getPercentFromRPETable targetReps (10 - targetRIR) / 100 /
      roundIncrement) : ℚ) * roundIncrement

/-! ### route.ts (`src/app/api/calculate/route.ts`) -/

inductive WeightUnit where
  | lbs
  | kg
deriving DecidableEq, Repr

/-- `roundToNearest25lbs(lbs)`. -/
def roundToNearest25lbs (lbsVal : ℚ) : ℚ := (jsRound (lbsVal / 2.5) : ℚ) * 2.5

/-- The fixed conversion factor `1 kg = 2.2046226218 lb`. -/
def KG_TO_LB : ℚ := 2.2046226218

/-- `toLbs(value, unit)`. -/
def toLbs (value : ℚ) (unit : WeightUnit) : ℚ :=
  if unit = .kg then value * KG_TO_LB else value

/-- `fromLbs(valueLbs, unit)`. -/
def fromLbs (valueLbs : ℚ) (unit : WeightUnit) : ℚ :=
  if unit = .kg then valueLbs / KG_TO_LB else valueLbs

/-- `interface PreviousSet` (rir optional). -/
structure PreviousSet where
  weight : ℚ
  reps : ℚ
  rir : Option ℚ
deriving DecidableEq, Repr

/-- A set with the defaulted RIR (`const rir = s.rir ?? 2`). -/
structure TopSet where
  weight : ℚ
  reps : ℚ
  rir : ℚ
deriving DecidableEq, Repr

/-- `interface PreviousExerciseInstance`. -/
structure PreviousExerciseInstance where
  id : Option String
  name : String
  group : Option String
  sets : List PreviousSet
deriving DecidableEq, Repr

/-- `interface PreviousWorkout`. -/
structure PreviousWorkout where
  date : Option String
  split : Option String
  goal : Option TrainingGoal
  exerciseInstances : List PreviousExerciseInstance
deriving DecidableEq, Repr

/-- `{ ...s, rir }` with the default applied. -/
def withRir (s : PreviousSet) : TopSet := ⟨s.weight, s.reps, s.rir.getD 2⟩

/-- Epley score of a defaulted set, as computed in the selection loop. -/
def epleyOf (t : TopSet) : ℚ := e1rmPerformance t.weight t.reps t.rir

/-- One iteration of the top-set selection loop (lines 94–102):
state is `(topSet, maxEpleyScore)`, update on strict `>`. -/
def selectStep (acc : Option TopSet × ℚ) (s : PreviousSet) : Option TopSet × ℚ :=
  let t := withRir s
  let epleyScore := epleyOf t
  if epleyScore > acc.2 then (some t, epleyScore) else acc

/-- The selection loop: `topSet = null`, `maxEpleyScore = 0` initially. -/
def selectTopSet (sets : List PreviousSet) : Option TopSet :=
  (sets.foldl selectStep (none, 0)).1

/-- `const perRirDropPct = 2.0` (line 116). -/
def perRirDropPct : ℚ := 2.0

/-- Per-exercise analysis record produced by the first `map` of the POST
handler (lines 89–144); the null-top-set branch leaves
`currentBaseline`/`rpeChartPercent` undefined, i.e. falsy, embedded as 0. -/
structure AnalyzedExercise where
  id : Option String
  name : String
  group : Option String
  topSet : Option TopSet
  topSetRPE : ℚ
  estimated1RM : ℚ
  perceived1RM : ℚ
  currentBaseline : ℚ
  rpeChartPercent : ℚ
deriving DecidableEq, Repr

/-- First `map` of the POST handler (lines 89–144). -/
def analyzeExercise (ex : PreviousExerciseInstance) : AnalyzedExercise :=
  match selectTopSet ex.sets with
  | none => ⟨ex.id, ex.name, ex.group, none, 0, 0, 0, 0, 0⟩
  | some t =>
    let estimated1RM := e1rmPerformance t.weight t.reps t.rir
    let perceived1RM := e1rmPerceived t.weight t.reps t.rir NSCA_BASE_ROW perRirDropPct
    let currentBaseline := perceived1RM
    let rpe := 10 - t.rir
    let rpeChartPercent := getPercentFromRPETable t.reps rpe
    ⟨ex.id, ex.name, ex.group, some t, rpe, estimated1RM, perceived1RM,
     currentBaseline, rpeChartPercent⟩

/-- `const roundIncrement = 2.5` (line 149). -/
def roundIncrement : ℚ := 2.5

/-- Pre-adjustment planned weight (lines 174–182): the
`loadFromBaselineUsingPercent` call on the clamped default reps
(`targetReps`) and the zone's target RIR. -/
def plannedWeightBase (goal : TrainingGoal) (baseline : ℚ) : ℚ :=
  loadFromBaselineUsingPercent baseline
    (clampToZoneReps goal (some (ZONE_PRESETS goal).defaultReps))
    (ZONE_PRESETS goal).targetRIR roundIncrement

/-- Progressive-overload adjustment (lines 184–189): top-of-range checked
first, both branches floored at `roundIncrement` by `Math.max`. -/
def adjustPlannedWeight (goal : TrainingGoal) (t : TopSet) (planned : ℚ) : ℚ :=
  if isInTopOfRange t.reps t.rir goal then max roundIncrement (planned + roundIncrement)
  else if isBelowRange t.reps t.rir goal then max roundIncrement (planned - roundIncrement)
  else planned

/-- Final unit-handling step (lines 191–194): convert to pounds, round to
the nearest 2.5 lbs, convert back. -/
def finalWeight (unit : WeightUnit) (planned : ℚ) : ℚ :=
  fromLbs (roundToNearest25lbs (toLbs planned unit)) unit

/-- One recommended set (lines 196–202 and 214–221 merged: the emitted
set carries `setIndex`, the display-rounded weight, target reps, RPE,
percent of 1RM and the note). -/
structure RecommendedSet where
  setIndex : ℕ
  weight : ℚ
  reps : ℚ
  targetRPE : ℚ
  percentOf1RM : ℚ
  notes : String
deriving DecidableEq, Repr

/-- Per-exercise recommendation (lines 151–224). -/
structure RecommendedExercise where
  id : Option String
  name : String
  group : Option String
  perceived1RM : ℚ
  estimated1RM : ℚ
  topSetRPE : ℚ
  targetPercentRange : String
  targetReps : String
  recommendedSets : List RecommendedSet
deriving DecidableEq, Repr

def goalString : TrainingGoal → String
  | .STRENGTH => "STRENGTH"
  | .HYPERTROPHY => "HYPERTROPHY"
  | .ENDURANCE => "ENDURANCE"

def unitString : WeightUnit → String
  | .lbs => "lbs"
  | .kg => "kg"

/-- The template literal `${zonePreset.low}-${zonePreset.high}%`. -/
def targetPercentRangeString (goal : TrainingGoal) : String :=
  toString (ZONE_PRESETS goal).low ++ "-" ++ toString (ZONE_PRESETS goal).high ++ "%"

/-- The set note `Zone: ${goal}, Perceived 1RM: ${baseline.toFixed(1)}
${unit}`. -/
def noteString (goal : TrainingGoal) (unit : WeightUnit) (baseline : ℚ) : String :=
  "Zone: " ++ goalString goal ++ ", Perceived 1RM: " ++
    toString (toFixed1 baseline) ++ " " ++ unitString unit

/-- The degenerate recommendation emitted for an exercise without a top
set or with a falsy baseline (lines 152–166). -/
def nullRecommendation (goal : TrainingGoal) (ex : AnalyzedExercise) :
    RecommendedExercise :=
  ⟨ex.id, ex.name, ex.group, 0, 0, 0, targetPercentRangeString goal,
   toString (ZONE_PRESETS goal).defaultReps, []⟩

/-- The set with index `idx` emitted for an exercise with a top set
(lines 196–202 merged with 214–221): the weight is the final rounded
weight, display-rounded by `toFixed(2)`, and `percentOf1RM` divides that
display weight by the perceived 1RM. -/
def recommendedSetAt (goal : TrainingGoal) (unit : WeightUnit)
    (ex : AnalyzedExercise) (t : TopSet) (idx : ℕ) : RecommendedSet :=
  ⟨idx + 1,
   toFixed2 (finalWeight unit
     (adjustPlannedWeight goal t (plannedWeightBase goal ex.currentBaseline))),
   clampToZoneReps goal (some (ZONE_PRESETS goal).defaultReps),
   10 - (ZONE_PRESETS goal).targetRIR,
   toFixed1 (toFixed2 (finalWeight unit
       (adjustPlannedWeight goal t (plannedWeightBase goal ex.currentBaseline))) /
     ex.perceived1RM * 100),
   noteString goal unit ex.currentBaseline⟩

/-- Second `map` of the POST handler (lines 151–224).  String formatting
of numbers is abstracted through `toString`/`toFixed1`/`toFixed2`. -/
def recommendExercise (goal : TrainingGoal) (unit : WeightUnit)
    (ex : AnalyzedExercise) : RecommendedExercise :=
  match ex.topSet with
  | none => nullRecommendation goal ex
  | some t =>
    if ex.currentBaseline = 0 then nullRecommendation goal ex
    else
      ⟨ex.id, ex.name, ex.group, toFixed2 ex.perceived1RM, toFixed2 ex.estimated1RM,
       ex.topSetRPE, targetPercentRangeString goal,
       toString (clampToZoneReps goal (some (ZONE_PRESETS goal).defaultReps)),
       (List.range (ZONE_PRESETS goal).sets).map (recommendedSetAt goal unit ex t)⟩

/-- The `details` entry per exercise (lines 240–251). -/
structure DetailsExercise where
  name : String
  topSetWeight : ℚ
  topSetReps : ℚ
  topSetRir : ℚ
  topSetRpe : ℚ
  perceived1RM : ℚ
  estimated1RM : ℚ
  rpeChartPercent : ℚ
deriving DecidableEq, Repr

def detailsOf (ex : AnalyzedExercise) : DetailsExercise :=
  ⟨ex.name, (ex.topSet.map TopSet.weight).getD 0, (ex.topSet.map TopSet.reps).getD 0,
   (ex.topSet.map TopSet.rir).getD 0, ex.topSetRPE, ex.perceived1RM, ex.estimated1RM,
   ex.rpeChartPercent⟩

/-- The `newWorkout` object (lines 230–236).  `new Date()` is the ambient
clock, embedded as the explicit `today` day number; the emitted date is
the following day. -/
structure NewWorkout where
  date : ℕ
  split : String
  goal : TrainingGoal
  status : String
  exerciseInstances : List RecommendedExercise
deriving DecidableEq, Repr

/-- The POST response body `{ newWorkout, details }` (line 254). -/
structure CalculateResponse where
  newWorkout : NewWorkout
  details : List DetailsExercise
deriving DecidableEq, Repr

/-- The POST calculation (`planNextSession`, lines 77–262) on a payload
that passed validation.  `weightUnit` defaults to lbs (line 81), the goal
defaults to HYPERTROPHY (line 147), and `today` is the ambient clock. -/
def planNextSession (previousWorkout : PreviousWorkout)
    (weightUnit : Option WeightUnit) (today : ℕ) : CalculateResponse :=
  let unit := weightUnit.getD .lbs
  let exercises := previousWorkout.exerciseInstances.map analyzeExercise
  let goal := previousWorkout.goal.getD .HYPERTROPHY
  let recommendedExercises := exercises.map (recommendExercise goal unit)
  ⟨⟨today + 1, previousWorkout.split.getD "", goal, "planned", recommendedExercises⟩,
   exercises.map detailsOf⟩

/-! ### Helper definitions and lemmas -/

/-- The RPE key list shared by the base row and every row of `RPE_TABLE`. -/
def KEYS : List ℚ := [10, 9.5, 9, 8.5, 8, 7.5, 7, 6.5]

/-- `KEYS` without its head. -/
def KEYS_TAIL : List ℚ := [9.5, 9, 8.5, 8, 7.5, 7, 6.5]

/-- Direct access to the stored percentage of `RPE_TABLE` at a rep row and
an RPE key (no clamping, no nearest-neighbor search). -/
def tableAt (n k : ℚ) : ℚ :=
  match lookupQ n RPE_TABLE with
  | none => 75
  | some row => (lookupQ k row).getD 75

theorem lookupQ_cons_self {α : Type} (k : ℚ) (v : α) (rest : List (ℚ × α)) :
    lookupQ k ((k, v) :: rest) = some v := by
  simp [lookupQ]

theorem lookupQ_cons_ne {α : Type} {k k' : ℚ} (v : α) (rest : List (ℚ × α))
    (h : ¬k = k') : lookupQ k ((k', v) :: rest) = lookupQ k rest := by
  simp [lookupQ, h]

theorem lookupQ_mem_of_key {α : Type} :
    ∀ (row : List (ℚ × α)) (k : ℚ), k ∈ row.map Prod.fst →
      ∃ v, lookupQ k row = some v ∧ (k, v) ∈ row := by
  intro row
  induction row with
  | nil => intro k hk; simp at hk
  | cons p rest ih =>
    intro k hk
    obtain ⟨k', v⟩ := p
    by_cases hkk : k = k'
    · subst hkk
      exact ⟨v, lookupQ_cons_self k v rest, List.mem_cons_self _ _⟩
    · have hk' : k ∈ rest.map Prod.fst := by
        rcases List.mem_cons.mp hk with h | h
        · exact absurd h hkk
        · exact h
      obtain ⟨v', hv', hmem⟩ := ih k hk'
      exact ⟨v', by rw [lookupQ_cons_ne v rest hkk]; exact hv',
        List.mem_cons_of_mem _ hmem⟩

theorem insertDesc_cons_of_lt {x y : ℚ} (ys : List ℚ) (h : y < x) :
    insertDesc x (y :: ys) = x :: y :: ys := by
  simp [insertDesc, h]

theorem sortDesc_of_sorted : ∀ l : List ℚ, l.Pairwise (· > ·) → sortDesc l = l := by
  intro l
  induction l with
  | nil => intro; rfl
  | cons x xs ih =>
    intro h
    have hxs : sortDesc xs = xs := ih (List.pairwise_cons.mp h).2
    show insertDesc x (sortDesc xs) = x :: xs
    rw [hxs]
    cases xs with
    | nil => rfl
    | cons y ys =>
      exact insertDesc_cons_of_lt ys ((List.pairwise_cons.mp h).1 y (List.mem_cons_self _ _))

theorem KEYS_pairwise : KEYS.Pairwise (· > ·) := by
  norm_num [KEYS, List.pairwise_cons]

theorem sortDesc_KEYS : sortDesc KEYS = KEYS :=
  sortDesc_of_sorted KEYS KEYS_pairwise

theorem foldBest_nil (q b : ℚ) : foldBest q b [] = b := rfl

theorem foldBest_cons (q b k : ℚ) (l : List ℚ) :
    foldBest q b (k :: l) = foldBest q (if |q - k| < |q - b| then k else b) l := rfl

theorem foldBest_min :
    ∀ (l : List ℚ) (q b : ℚ),
      |q - foldBest q b l| ≤ |q - b| ∧ ∀ x ∈ l, |q - foldBest q b l| ≤ |q - x| := by
  intro l
  induction l with
  | nil => intro q b; exact ⟨le_refl _, by simp⟩
  | cons k t ih =>
    intro q b
    by_cases hc : |q - k| < |q - b|
    · rw [foldBest_cons, if_pos hc]
      rcases ih q k with ⟨h1, h2⟩
      refine ⟨h1.trans hc.le, ?_⟩
      intro x hx
      rcases List.mem_cons.mp hx with rfl | hx'
      · exact h1
      · exact h2 x hx'
    · rw [foldBest_cons, if_neg hc]
      rcases ih q b with ⟨h1, h2⟩
      refine ⟨h1, ?_⟩
      intro x hx
      rcases List.mem_cons.mp hx with rfl | hx'
      · exact h1.trans (not_lt.mp hc)
      · exact h2 x hx'

theorem foldBest_mem :
    ∀ (l : List ℚ) (q b : ℚ), foldBest q b l = b ∨ foldBest q b l ∈ l := by
  intro l
  induction l with
  | nil => intro q b; exact Or.inl rfl
  | cons k t ih =>
    intro q b
    by_cases hc : |q - k| < |q - b|
    · rw [foldBest_cons, if_pos hc]
      rcases ih q k with h | h
      · exact Or.inr (by rw [h]; exact List.mem_cons_self _ _)
      · exact Or.inr (List.mem_cons_of_mem _ h)
    · rw [foldBest_cons, if_neg hc]
      rcases ih q b with h | h
      · exact Or.inl h
      · exact Or.inr (List.mem_cons_of_mem _ h)

theorem foldBest_tie :
    ∀ (l : List ℚ) (q b : ℚ), (b :: l).Pairwise (· > ·) →
      ∀ x ∈ b :: l, |q - x| = |q - foldBest q b l| → x ≤ foldBest q b l := by
  intro l
  induction l with
  | nil =>
    intro q b _ x hx _
    rcases List.mem_cons.mp hx with rfl | hx'
    · exact le_refl _
    · simp at hx'
  | cons k t ih =>
    intro q b h x hx hdist
    have hbk : k < b := (List.pairwise_cons.mp h).1 k (List.mem_cons_self _ _)
    by_cases hc : |q - k| < |q - b|
    · rw [foldBest_cons, if_pos hc] at hdist ⊢
      have hkt : (k :: t).Pairwise (· > ·) := (List.pairwise_cons.mp h).2
      rcases List.mem_cons.mp hx with heq | hx'
      · exfalso
        subst heq
        have hmin := (foldBest_min t q k).1
        have hlt : |q - foldBest q k t| < |q - x| := hmin.trans_lt hc
        rw [hdist] at hlt
        exact lt_irrefl _ hlt
      · exact ih q k hkt x hx' hdist
    · rw [foldBest_cons, if_neg hc] at hdist ⊢
      have hbt : (b :: t).Pairwise (· > ·) := by
        rw [List.pairwise_cons] at h ⊢
        exact ⟨fun y hy => h.1 y (List.mem_cons_of_mem _ hy),
          (List.pairwise_cons.mp h.2).2⟩
      rcases List.mem_cons.mp hx with heq | hx'
      · subst heq
        exact ih q x hbt x (List.mem_cons_self _ _) hdist
      rcases List.mem_cons.mp hx' with heq | hx''
      · subst heq
        have hkb := not_lt.mp hc
        have hrb := (foldBest_min t q b).1
        have heq2 : |q - b| = |q - foldBest q b t| :=
          le_antisymm (hkb.trans hdist.le) hrb
        have hble := ih q b hbt b (List.mem_cons_self _ _) heq2
        exact hbk.le.trans hble
      · exact ih q b hbt x (List.mem_cons_of_mem _ hx'') hdist

theorem foldBest_self (l : List ℚ) (q b : ℚ) (h : q ∈ b :: l) : foldBest q b l = q := by
  have hmin := foldBest_min l q b
  have habs : |q - foldBest q b l| ≤ 0 := by
    rcases List.mem_cons.mp h with heq | h'
    · subst heq
      simpa using hmin.1
    · simpa using hmin.2 q h'
  have h0 : |q - foldBest q b l| = 0 :=
    le_antisymm habs (abs_nonneg _)
  exact (sub_eq_zero.mp (abs_eq_zero.mp h0)).symm

theorem jsRound_intCast (n : ℤ) : jsRound (n : ℚ) = n := by
  unfold jsRound
  rw [Int.floor_int_add]
  norm_num

theorem clampReps_int (reps : ℚ) :
    ∃ n : ℤ, clampReps reps = (n : ℚ) ∧ 1 ≤ n ∧ n ≤ 12 := by
  refine ⟨max 1 (min 12 (jsRound reps)), ?_, le_max_left _ _,
    max_le (by norm_num) (min_le_left _ _)⟩
  unfold clampReps
  push_cast
  rfl

theorem clampReps_cast (n : ℤ) (h1 : 1 ≤ n) (h12 : n ≤ 12) :
    clampReps (n : ℚ) = (n : ℚ) := by
  unfold clampReps
  rw [jsRound_intCast]
  rw [min_eq_right (by exact_mod_cast h12), max_eq_right (by exact_mod_cast h1)]

theorem RPE_TABLE_fst :
    RPE_TABLE.map Prod.fst = [1, 2, 3, 4, 5, 6, 7, 8, 9, 10, 11, 12] := rfl

theorem RPE_TABLE_row_keys : ∀ p ∈ RPE_TABLE, p.2.map Prod.fst = KEYS := by
  intro p hp
  fin_cases hp <;> rfl

theorem mem_RPE_keys (n : ℤ) (h1 : 1 ≤ n) (h12 : n ≤ 12) :
    (n : ℚ) ∈ RPE_TABLE.map Prod.fst := by
  rw [RPE_TABLE_fst]
  interval_cases n <;> norm_num

theorem RPE_TABLE_row (reps : ℚ) :
    ∃ row, lookupQ (clampReps reps) RPE_TABLE = some row ∧
      (clampReps reps, row) ∈ RPE_TABLE ∧ row.map Prod.fst = KEYS := by
  obtain ⟨n, hn, h1, h12⟩ := clampReps_int reps
  rw [hn]
  obtain ⟨row, hrow, hmem⟩ := lookupQ_mem_of_key RPE_TABLE _ (mem_RPE_keys n h1 h12)
  exact ⟨row, hrow, hmem, RPE_TABLE_row_keys _ hmem⟩

theorem KEYS_eq : KEYS = 10 :: KEYS_TAIL := rfl

theorem foldBest_KEYS (q : ℚ) : foldBest q 10 KEYS = foldBest q 10 KEYS_TAIL := by
  rw [KEYS_eq, foldBest_cons, ite_self]

theorem closestRPEKey_KEYS (q : ℚ) :
    closestRPEKey q KEYS = some (foldBest q 10 KEYS_TAIL) := by
  rw [← foldBest_KEYS]
  rfl

theorem foldBest_KEYS_mem (q : ℚ) : foldBest q 10 KEYS_TAIL ∈ KEYS := by
  rcases foldBest_mem KEYS_TAIL q 10 with h | h
  · rw [h, KEYS_eq]
    exact List.mem_cons_self _ _
  · rw [KEYS_eq]
    exact List.mem_cons_of_mem _ h

theorem foldBest_KEYS_min (q : ℚ) :
    ∀ j ∈ KEYS, |q - foldBest q 10 KEYS_TAIL| ≤ |q - j| := by
  intro j hj
  have hmin := foldBest_min KEYS_TAIL q 10
  rw [KEYS_eq] at hj
  rcases List.mem_cons.mp hj with heq | hj'
  · rw [heq]
    exact hmin.1
  · exact hmin.2 j hj'

theorem foldBest_KEYS_tie (q : ℚ) :
    ∀ j ∈ KEYS, |q - j| = |q - foldBest q 10 KEYS_TAIL| →
      j ≤ foldBest q 10 KEYS_TAIL := by
  intro j hj hdist
  exact foldBest_tie KEYS_TAIL q 10 KEYS_pairwise j hj hdist

theorem getPercent_eq_of (reps rpe : ℚ) (row : List (ℚ × ℚ))
    (hrow : lookupQ (clampReps reps) RPE_TABLE = some row) :
    getPercentFromRPETable reps rpe =
      (match closestRPEKey (clampRPE rpe) (sortDesc (row.map Prod.fst)) with
        | none => 75
        | some k => (lookupQ k row).getD 75) := by
  unfold getPercentFromRPETable
  rw [hrow]

theorem tableAt_eq_of (n k : ℚ) (row : List (ℚ × ℚ))
    (hrow : lookupQ n RPE_TABLE = some row) :
    tableAt n k = (lookupQ k row).getD 75 := by
  unfold tableAt
  rw [hrow]

/-- Master characterization of `getPercentFromRPETable`: the result is
the stored entry of the clamped rep row at the unique nearest RPE key
(ties resolved toward the larger key). -/
theorem getPercent_master (reps rpe : ℚ) :
    ∃ k ∈ KEYS,
      getPercentFromRPETable reps rpe = tableAt (clampReps reps) k ∧
      (∃ p ∈ RPE_TABLE, (k, getPercentFromRPETable reps rpe) ∈ p.2) ∧
      (∀ j ∈ KEYS, |clampRPE rpe - k| ≤ |clampRPE rpe - j|) ∧
      (∀ j ∈ KEYS, |clampRPE rpe - j| = |clampRPE rpe - k| → j ≤ k) := by
  obtain ⟨row, hrow, hmem, hkeys⟩ := RPE_TABLE_row reps
  have hsort : sortDesc (row.map Prod.fst) = KEYS := by
    rw [hkeys]
    exact sortDesc_KEYS
  have hgp : getPercentFromRPETable reps rpe =
      (lookupQ (foldBest (clampRPE rpe) 10 KEYS_TAIL) row).getD 75 := by
    rw [getPercent_eq_of reps rpe row hrow, hsort, closestRPEKey_KEYS]
  have hkmem : foldBest (clampRPE rpe) 10 KEYS_TAIL ∈ KEYS := foldBest_KEYS_mem _
  obtain ⟨v, hv, hvmem⟩ := lookupQ_mem_of_key row _ (by rw [hkeys]; exact hkmem)
  refine ⟨_, hkmem, ?_, ?_, foldBest_KEYS_min _, foldBest_KEYS_tie _⟩
  · rw [hgp, tableAt_eq_of _ _ row hrow]
  · refine ⟨(clampReps reps, row), hmem, ?_⟩
    rw [hgp, hv]
    exact hvmem

theorem clampRPE_of_mem : ∀ k ∈ KEYS, clampRPE k = k := by
  intro k hk
  fin_cases hk <;> norm_num [clampRPE]

theorem clampRPE_of_gt10 {rpe : ℚ} (h : 10 < rpe) : clampRPE rpe = 10 := by
  unfold clampRPE
  rw [min_eq_left h.le]
  norm_num

theorem foldBest_KEYS_self {q : ℚ} (hq : q ∈ KEYS) : foldBest q 10 KEYS_TAIL = q :=
  foldBest_self KEYS_TAIL q 10 (by rw [← KEYS_eq]; exact hq)

theorem getPercent_congr (reps : ℚ) {a b : ℚ} (h : clampRPE a = clampRPE b) :
    getPercentFromRPETable reps a = getPercentFromRPETable reps b := by
  obtain ⟨row, hrow, -, -⟩ := RPE_TABLE_row reps
  rw [getPercent_eq_of reps a row hrow, getPercent_eq_of reps b row hrow, h]

/-- On the table's native domain the lookup is the exact stored entry. -/
theorem getPercent_native (n : ℤ) (h1 : 1 ≤ n) (h12 : n ≤ 12) {rpe : ℚ}
    (hrpe : rpe ∈ KEYS) :
    getPercentFromRPETable (n : ℚ) rpe = tableAt (n : ℚ) rpe := by
  have hc : clampReps (n : ℚ) = (n : ℚ) := clampReps_cast n h1 h12
  obtain ⟨row, hrow, hmem, hkeys⟩ := RPE_TABLE_row (n : ℚ)
  rw [hc] at hrow
  have hrow' : lookupQ (clampReps (n : ℚ)) RPE_TABLE = some row := by rw [hc]; exact hrow
  rw [getPercent_eq_of (n : ℚ) rpe row hrow', tableAt_eq_of (n : ℚ) rpe row hrow]
  have hsort : sortDesc (row.map Prod.fst) = KEYS := by rw [hkeys]; exact sortDesc_KEYS
  rw [hsort, closestRPEKey_KEYS, clampRPE_of_mem rpe hrpe, foldBest_KEYS_self hrpe]

/-- `e1rmPerceived` over the standard base row, with the nearest-key
search exposed. -/
theorem e1rmPerceived_NSCA (weight reps RIR dropPct : ℚ) :
    e1rmPerceived weight reps RIR NSCA_BASE_ROW dropPct =
      weight /
        ((lookupQ (foldBest (clampRPE (10 - RIR)) 10 KEYS_TAIL) NSCA_BASE_ROW).getD 100 -
          max 0 (reps - 1) * dropPct) * 100 := by
  unfold e1rmPerceived
  rw [show NSCA_BASE_ROW.map Prod.fst = KEYS from rfl, sortDesc_KEYS, closestRPEKey_KEYS]

/-! Selection-loop lemmas. -/

theorem selectFold_from (l : List PreviousSet) :
    ∀ t0 : TopSet,
      ∃ t : TopSet, l.foldl selectStep (some t0, epleyOf t0) = (some t, epleyOf t) ∧
        ((t = t0 ∧ ∀ u ∈ l, epleyOf (withRir u) ≤ epleyOf t0) ∨
         (∃ l1 s l2, l = l1 ++ s :: l2 ∧ t = withRir s ∧ epleyOf t0 < epleyOf t ∧
           (∀ u ∈ l1, epleyOf (withRir u) < epleyOf t) ∧
           (∀ u ∈ l2, epleyOf (withRir u) ≤ epleyOf t))) := by
  induction l with
  | nil =>
    intro t0
    exact ⟨t0, rfl, Or.inl ⟨rfl, by simp⟩⟩
  | cons s l ih =>
    intro t0
    rw [List.foldl_cons]
    by_cases hc : epleyOf (withRir s) > epleyOf t0
    · have hstep : selectStep (some t0, epleyOf t0) s =
          (some (withRir s), epleyOf (withRir s)) := by
        unfold selectStep
        rw [if_pos hc]
      rw [hstep]
      obtain ⟨t, hfold, hdisj⟩ := ih (withRir s)
      refine ⟨t, hfold, Or.inr ?_⟩
      rcases hdisj with ⟨heq, hall⟩ | ⟨l1, s', l2, heq, ht, hlt, hpre, hsuf⟩
      · refine ⟨[], s, l, rfl, heq, by rw [heq]; exact hc, by simp, ?_⟩
        intro u hu
        rw [heq]
        exact hall u hu
      · refine ⟨s :: l1, s', l2, by rw [heq]; rfl, ht, hc.trans hlt, ?_, hsuf⟩
        intro u hu
        rcases List.mem_cons.mp hu with huu | hu'
        · rw [huu]
          exact hlt
        · exact hpre u hu'
    · have hstep : selectStep (some t0, epleyOf t0) s = (some t0, epleyOf t0) := by
        unfold selectStep
        rw [if_neg hc]
      rw [hstep]
      obtain ⟨t, hfold, hdisj⟩ := ih t0
      refine ⟨t, hfold, ?_⟩
      rcases hdisj with ⟨heq, hall⟩ | ⟨l1, s', l2, heq, ht, hlt, hpre, hsuf⟩
      · refine Or.inl ⟨heq, ?_⟩
        intro u hu
        rcases List.mem_cons.mp hu with huu | hu'
        · rw [huu]
          exact not_lt.mp hc
        · exact hall u hu'
      · refine Or.inr ⟨s :: l1, s', l2, by rw [heq]; rfl, ht, hlt, ?_, hsuf⟩
        intro u hu
        rcases List.mem_cons.mp hu with huu | hu'
        · rw [huu]
          exact (not_lt.mp hc).trans_lt hlt
        · exact hpre u hu'

theorem selectTopSet_spec (l : List PreviousSet) :
    (selectTopSet l = none ∧ ∀ u ∈ l, epleyOf (withRir u) ≤ 0) ∨
    (∃ t, selectTopSet l = some t ∧
      ∃ l1 s l2, l = l1 ++ s :: l2 ∧ t = withRir s ∧ 0 < epleyOf t ∧
        (∀ u ∈ l1, epleyOf (withRir u) < epleyOf t) ∧
        (∀ u ∈ l2, epleyOf (withRir u) ≤ epleyOf t)) := by
  have main : ∀ l' : List PreviousSet,
      (l'.foldl selectStep (none, 0) = (none, 0) ∧ ∀ u ∈ l', epleyOf (withRir u) ≤ 0) ∨
      (∃ t, l'.foldl selectStep (none, 0) = (some t, epleyOf t) ∧
        ∃ l1 s l2, l' = l1 ++ s :: l2 ∧ t = withRir s ∧ 0 < epleyOf t ∧
          (∀ u ∈ l1, epleyOf (withRir u) < epleyOf t) ∧
          (∀ u ∈ l2, epleyOf (withRir u) ≤ epleyOf t)) := by
    intro l'
    induction l' with
    | nil => exact Or.inl ⟨rfl, by simp⟩
    | cons s t ih =>
      rw [List.foldl_cons]
      by_cases hc : epleyOf (withRir s) > (0 : ℚ)
      · have hstep : selectStep (none, 0) s =
            (some (withRir s), epleyOf (withRir s)) := by
          unfold selectStep
          rw [if_pos hc]
        rw [hstep]
        obtain ⟨t', hfold, hdisj⟩ := selectFold_from t (withRir s)
        refine Or.inr ⟨t', hfold, ?_⟩
        rcases hdisj with ⟨heq, hall⟩ | ⟨l1, s', l2, heq, ht, hlt, hpre, hsuf⟩
        · refine ⟨[], s, t, rfl, heq, by rw [heq]; exact hc, by simp, ?_⟩
          intro u hu
          rw [heq]
          exact hall u hu
        · refine ⟨s :: l1, s', l2, by rw [heq]; rfl, ht, ?_, ?_, hsuf⟩
          · exact hc.trans hlt
          · intro u hu
            rcases List.mem_cons.mp hu with huu | hu'
            · rw [huu]
              exact hlt
            · exact hpre u hu'
      · have hstep : selectStep (none, 0) s = (none, 0) := by
          unfold selectStep
          rw [if_neg hc]
        rw [hstep]
        rcases ih with ⟨hfold, hall⟩ | ⟨t', hfold, l1, s', l2, heq, ht, hpos, hpre, hsuf⟩
        · refine Or.inl ⟨hfold, ?_⟩
          intro u hu
          rcases List.mem_cons.mp hu with huu | hu'
          · rw [huu]
            exact not_lt.mp hc
          · exact hall u hu'
        · refine Or.inr ⟨t', hfold, s :: l1, s', l2, by rw [heq]; rfl, ht, hpos, ?_, hsuf⟩
          intro u hu
          rcases List.mem_cons.mp hu with huu | hu'
          · rw [huu]
            exact (not_lt.mp hc).trans_lt hpos
          · exact hpre u hu'
  rcases main l with ⟨hfold, hall⟩ | ⟨t, hfold, hdec⟩
  · exact Or.inl ⟨by unfold selectTopSet; rw [hfold], hall⟩
  · exact Or.inr ⟨t, by unfold selectTopSet; rw [hfold], hdec⟩

theorem epleyOf_pos {s : PreviousSet} (hw : 0 < s.weight) (hr : 0 ≤ s.reps)
    (hrir : 0 ≤ s.rir.getD 2) : 0 < epleyOf (withRir s) := by
  unfold epleyOf withRir e1rmPerformance
  have h30 : (0 : ℚ) < 1 + (s.reps + s.rir.getD 2) / 30 := by
    have : (0 : ℚ) ≤ (s.reps + s.rir.getD 2) / 30 := by positivity
    linarith
  exact mul_pos hw h30

theorem selectTopSet_of_valid {l : List PreviousSet} (hne : l ≠ [])
    (hv : ∀ u ∈ l, 0 < u.weight ∧ 0 ≤ u.reps ∧ 0 ≤ u.rir.getD 2) :
    ∃ t, selectTopSet l = some t ∧
      ∃ l1 s l2, l = l1 ++ s :: l2 ∧ t = withRir s ∧ 0 < epleyOf t ∧
        (∀ u ∈ l1, epleyOf (withRir u) < epleyOf t) ∧
        (∀ u ∈ l2, epleyOf (withRir u) ≤ epleyOf t) := by
  rcases selectTopSet_spec l with ⟨-, hall⟩ | h
  · exfalso
    cases l with
    | nil => exact hne rfl
    | cons u t =>
      have h1 := hall u (List.mem_cons_self _ _)
      have h2 := hv u (List.mem_cons_self _ _)
      have := epleyOf_pos h2.1 h2.2.1 h2.2.2
      linarith
  · exact h

/-! Pipeline unfolding lemmas. -/

theorem clampToZoneReps_default (goal : TrainingGoal) :
    clampToZoneReps goal (some (ZONE_PRESETS goal).defaultReps) =
      (ZONE_PRESETS goal).defaultReps := by
  cases goal <;> norm_num [clampToZoneReps, ZONE_PRESETS]

theorem plannedWeightBase_eq (goal : TrainingGoal) (baseline : ℚ) :
    plannedWeightBase goal baseline =
      (jsRound (baseline *
          getPercentFromRPETable (ZONE_PRESETS goal).defaultReps
            (10 - (ZONE_PRESETS goal).targetRIR) / 100 / roundIncrement) : ℚ) *
        roundIncrement := by
  unfold plannedWeightBase loadFromBaselineUsingPercent
  rw [clampToZoneReps_default]

theorem analyzeExercise_none (ex : PreviousExerciseInstance)
    (h : selectTopSet ex.sets = none) :
    analyzeExercise ex = ⟨ex.id, ex.name, ex.group, none, 0, 0, 0, 0, 0⟩ := by
  unfold analyzeExercise
  rw [h]

theorem analyzeExercise_some (ex : PreviousExerciseInstance) (t : TopSet)
    (h : selectTopSet ex.sets = some t) :
    analyzeExercise ex = ⟨ex.id, ex.name, ex.group, some t, 10 - t.rir,
      e1rmPerformance t.weight t.reps t.rir,
      e1rmPerceived t.weight t.reps t.rir NSCA_BASE_ROW perRirDropPct,
      e1rmPerceived t.weight t.reps t.rir NSCA_BASE_ROW perRirDropPct,
      getPercentFromRPETable t.reps (10 - t.rir)⟩ := by
  unfold analyzeExercise
  rw [h]

theorem recommendExercise_none (goal : TrainingGoal) (unit : WeightUnit)
    (ex : AnalyzedExercise) (h : ex.topSet = none) :
    recommendExercise goal unit ex = nullRecommendation goal ex := by
  unfold recommendExercise
  rw [h]

theorem recommendExercise_zeroBaseline (goal : TrainingGoal) (unit : WeightUnit)
    (ex : AnalyzedExercise) (t : TopSet) (h : ex.topSet = some t)
    (h0 : ex.currentBaseline = 0) :
    recommendExercise goal unit ex = nullRecommendation goal ex := by
  unfold recommendExercise
  rw [h]
  exact if_pos h0

theorem recommendExercise_some (goal : TrainingGoal) (unit : WeightUnit)
    (ex : AnalyzedExercise) (t : TopSet) (h : ex.topSet = some t)
    (h0 : ¬ ex.currentBaseline = 0) :
    recommendExercise goal unit ex =
      ⟨ex.id, ex.name, ex.group, toFixed2 ex.perceived1RM, toFixed2 ex.estimated1RM,
       ex.topSetRPE, targetPercentRangeString goal,
       toString (clampToZoneReps goal (some (ZONE_PRESETS goal).defaultReps)),
       (List.range (ZONE_PRESETS goal).sets).map (recommendedSetAt goal unit ex t)⟩ := by
  unfold recommendExercise
  rw [h]
  exact if_neg h0

theorem adjustPlannedWeight_of_top {goal : TrainingGoal} {t : TopSet} (planned : ℚ)
    (h : isInTopOfRange t.reps t.rir goal = true) :
    adjustPlannedWeight goal t planned = max roundIncrement (planned + roundIncrement) := by
  unfold adjustPlannedWeight
  rw [h, if_pos rfl]

theorem adjustPlannedWeight_of_below {goal : TrainingGoal} {t : TopSet} (planned : ℚ)
    (h1 : isInTopOfRange t.reps t.rir goal = false)
    (h2 : isBelowRange t.reps t.rir goal = true) :
    adjustPlannedWeight goal t planned = max roundIncrement (planned - roundIncrement) := by
  unfold adjustPlannedWeight
  rw [h1, h2, if_neg Bool.false_ne_true, if_pos rfl]

theorem adjustPlannedWeight_of_neither {goal : TrainingGoal} {t : TopSet} (planned : ℚ)
    (h1 : isInTopOfRange t.reps t.rir goal = false)
    (h2 : isBelowRange t.reps t.rir goal = false) :
    adjustPlannedWeight goal t planned = planned := by
  unfold adjustPlannedWeight
  rw [h1, h2, if_neg Bool.false_ne_true, if_neg Bool.false_ne_true]

theorem top_below_exclusive (reps RIR : ℚ) (goal : TrainingGoal) :
    ¬(isInTopOfRange reps RIR goal = true ∧ isBelowRange reps RIR goal = true) := by
  rintro ⟨h1, h2⟩
  cases goal <;>
    simp only [isInTopOfRange, isBelowRange, ZONE_PRESETS, Bool.and_eq_true,
      Bool.or_eq_true, decide_eq_true_eq] at h1 h2 <;>
    rcases h2 with h2 | h2 <;>
    [linarith [h1.1]; linarith [h1.2]; linarith [h1.1]; linarith [h1.2];
     linarith [h1.1]; linarith [h1.2]]

/-! Concrete evaluation helpers. -/

theorem mem_KEYS_8 : (8 : ℚ) ∈ KEYS := by
  norm_num [KEYS, List.mem_cons]

theorem lookupQ_NSCA_8 : lookupQ (8 : ℚ) NSCA_BASE_ROW = some 92.2 := by
  unfold NSCA_BASE_ROW
  rw [lookupQ_cons_ne, lookupQ_cons_ne, lookupQ_cons_ne, lookupQ_cons_ne,
    lookupQ_cons_self] <;> norm_num

theorem clampRPE_8 : clampRPE (10 - 2) = 8 := by
  norm_num [clampRPE]

theorem lookupQ_RPE_TABLE_8 :
    lookupQ (8 : ℚ) RPE_TABLE =
      some [(10, 78.6), (9.5, 77.4), (9, 76.2), (8.5, 75.1),
            (8, 73.9), (7.5, 72.3), (7, 70.7), (6.5, 69.4)] := by
  unfold RPE_TABLE
  rw [lookupQ_cons_ne, lookupQ_cons_ne, lookupQ_cons_ne, lookupQ_cons_ne,
    lookupQ_cons_ne, lookupQ_cons_ne, lookupQ_cons_ne, lookupQ_cons_self] <;> norm_num

theorem getPercent_8_8 : getPercentFromRPETable 8 8 = 73.9 := by
  have h8 : ((8 : ℤ) : ℚ) = (8 : ℚ) := by norm_num
  have h := getPercent_native 8 (by norm_num) (by norm_num) mem_KEYS_8
  rw [h8] at h
  rw [h, tableAt_eq_of _ _ _ lookupQ_RPE_TABLE_8]
  rw [lookupQ_cons_ne, lookupQ_cons_ne, lookupQ_cons_ne, lookupQ_cons_ne,
    lookupQ_cons_self] <;> norm_num

theorem e1rmPerceived_1_8_2 :
    e1rmPerceived 1 8 2 NSCA_BASE_ROW perRirDropPct = 500 / 391 := by
  rw [e1rmPerceived_NSCA, clampRPE_8, foldBest_KEYS_self mem_KEYS_8, lookupQ_NSCA_8]
  norm_num [perRirDropPct]

theorem selectTopSet_single_1 :
    selectTopSet [⟨1, 8, some 2⟩] = some ⟨1, 8, 2⟩ := by
  unfold selectTopSet
  rw [List.foldl_cons, List.foldl_nil]
  unfold selectStep
  rw [if_pos (by norm_num [withRir, epleyOf, e1rmPerformance, Option.getD_some])]
  rfl

theorem selectTopSet_single_185 :
    selectTopSet [⟨185, 5, some 2⟩] = some ⟨185, 5, 2⟩ := by
  unfold selectTopSet
  rw [List.foldl_cons, List.foldl_nil]
  unfold selectStep
  rw [if_pos (by norm_num [withRir, epleyOf, e1rmPerformance, Option.getD_some])]
  rfl

theorem top_8_2_H : isInTopOfRange (8 : ℚ) 2 .HYPERTROPHY = false := by
  simp only [isInTopOfRange, ZONE_PRESETS]
  rw [decide_eq_false (show ¬((8 : ℚ) ≥ 12) by norm_num), Bool.false_and]

theorem below_8_2_H : isBelowRange (8 : ℚ) 2 .HYPERTROPHY = false := by
  simp only [isBelowRange, ZONE_PRESETS]
  rw [decide_eq_false (show ¬((8 : ℚ) < 6) by norm_num),
    decide_eq_false (show ¬((2 : ℚ) > 2 + 1) by norm_num), Bool.or_self]

theorem top_12_2_H : isInTopOfRange (12 : ℚ) 2 .HYPERTROPHY = true := by
  simp only [isInTopOfRange, ZONE_PRESETS]
  rw [decide_eq_true (show ((12 : ℚ) ≥ 12) by norm_num),
    decide_eq_true (show ((2 : ℚ) ≤ 2) by norm_num), Bool.and_self]

theorem finalWeight_lbs_0 : finalWeight .lbs 0 = 0 := by
  norm_num [finalWeight, fromLbs, toLbs, roundToNearest25lbs, jsRound]

theorem table_bounds : ∀ p ∈ RPE_TABLE, ∀ e ∈ p.2, 58.6 ≤ e.2 ∧ e.2 ≤ 100 := by
  intro p hp
  fin_cases hp <;> (intro e he; fin_cases he <;> exact ⟨by norm_num, by norm_num⟩)

/-! ### Claims -/

/-- C1: for every exercise whose previous session has at least one logged
set (with positive weight and non-negative reps/RIR), the engine's
baseline is the perceived 1RM of the selected top set — never the
performance/Epley 1RM — and the pre-adjustment planned weight is
`Math.round(baseline × percentFromTable(zone.defaultReps,
10 − zone.targetRIR) / 100 / 2.5) × 2.5` in the working unit. -/
theorem c1_planned_from_perceived (ex : PreviousExerciseInstance)
    (goal : TrainingGoal) (hne : ex.sets ≠ [])
    (hv : ∀ u ∈ ex.sets, 0 < u.weight ∧ 0 ≤ u.reps ∧ 0 ≤ u.rir.getD 2) :
    ∃ t, selectTopSet ex.sets = some t ∧
      (analyzeExercise ex).currentBaseline =
        e1rmPerceived t.weight t.reps t.rir NSCA_BASE_ROW perRirDropPct ∧
      plannedWeightBase goal ((analyzeExercise ex).currentBaseline) =
        (jsRound ((analyzeExercise ex).currentBaseline *
            getPercentFromRPETable (ZONE_PRESETS goal).defaultReps
              (10 - (ZONE_PRESETS goal).targetRIR) / 100 / roundIncrement) : ℚ) *
          roundIncrement := by
  obtain ⟨t, hsel, -⟩ := selectTopSet_of_valid hne hv
  refine ⟨t, hsel, ?_, plannedWeightBase_eq goal _⟩
  rw [analyzeExercise_some ex t hsel]

/-- C1 witness: the theorem applied to a bench-press exercise of one set
185 × 5 @ RIR 2 with the HYPERTROPHY goal. -/
theorem c1_witness :
    ∃ t, selectTopSet
        ((⟨none, "Bench Press", none, [⟨185, 5, some 2⟩]⟩ :
          PreviousExerciseInstance)).sets = some t ∧
      (analyzeExercise ⟨none, "Bench Press", none, [⟨185, 5, some 2⟩]⟩).currentBaseline =
        e1rmPerceived t.weight t.reps t.rir NSCA_BASE_ROW perRirDropPct ∧
      plannedWeightBase TrainingGoal.HYPERTROPHY
          ((analyzeExercise
            ⟨none, "Bench Press", none, [⟨185, 5, some 2⟩]⟩).currentBaseline) =
        (jsRound ((analyzeExercise
              ⟨none, "Bench Press", none, [⟨185, 5, some 2⟩]⟩).currentBaseline *
            getPercentFromRPETable (ZONE_PRESETS TrainingGoal.HYPERTROPHY).defaultReps
              (10 - (ZONE_PRESETS TrainingGoal.HYPERTROPHY).targetRIR) / 100 /
            roundIncrement) : ℚ) * roundIncrement :=
  c1_planned_from_perceived ⟨none, "Bench Press", none, [⟨185, 5, some 2⟩]⟩
    TrainingGoal.HYPERTROPHY (by simp)
    (by
      intro u hu
      simp only [List.mem_singleton] at hu
      subst hu
      exact ⟨by norm_num, by norm_num, by norm_num [Option.getD_some]⟩)

/-- C2 (amended): the overload adjustment is
`max(roundIncrement, planned + roundIncrement)` when in-top-of-range,
else `max(roundIncrement, planned − roundIncrement)` when below-range
(top-of-range checked first); when an adjustment branch fires the result
is at least one `roundIncrement` and hence positive, and the addition is
literally `planned + roundIncrement` whenever `planned ≥ 0`.  (When
neither predicate fires the planned weight passes through unchanged and
can be non-positive — see the counterexample.) -/
theorem c2_adjustment (goal : TrainingGoal) (t : TopSet) (planned : ℚ) :
    (isInTopOfRange t.reps t.rir goal = true →
      adjustPlannedWeight goal t planned = max roundIncrement (planned + roundIncrement)) ∧
    (isInTopOfRange t.reps t.rir goal = false →
      isBelowRange t.reps t.rir goal = true →
      adjustPlannedWeight goal t planned = max roundIncrement (planned - roundIncrement)) ∧
    (isInTopOfRange t.reps t.rir goal = false →
      isBelowRange t.reps t.rir goal = false →
      adjustPlannedWeight goal t planned = planned) ∧
    (isInTopOfRange t.reps t.rir goal = true ∨ isBelowRange t.reps t.rir goal = true →
      roundIncrement ≤ adjustPlannedWeight goal t planned ∧
      0 < adjustPlannedWeight goal t planned) ∧
    (0 ≤ planned → isInTopOfRange t.reps t.rir goal = true →
      adjustPlannedWeight goal t planned = planned + roundIncrement) := by
  have hinc : (0 : ℚ) < roundIncrement := by norm_num [roundIncrement]
  refine ⟨fun h => adjustPlannedWeight_of_top planned h,
    fun h1 h2 => adjustPlannedWeight_of_below planned h1 h2,
    fun h1 h2 => adjustPlannedWeight_of_neither planned h1 h2, ?_, ?_⟩
  · intro h
    rcases Bool.eq_false_or_eq_true (isInTopOfRange t.reps t.rir goal) with htop | htop
    · rw [adjustPlannedWeight_of_top planned htop]
      exact ⟨le_max_left _ _, hinc.trans_le (le_max_left _ _)⟩
    · have hbelow : isBelowRange t.reps t.rir goal = true := by
        rcases h with h | h
        · rw [htop] at h
          exact absurd h Bool.false_ne_true
        · exact h
      rw [adjustPlannedWeight_of_below planned htop hbelow]
      exact ⟨le_max_left _ _, hinc.trans_le (le_max_left _ _)⟩
  · intro hp htop
    rw [adjustPlannedWeight_of_top planned htop]
    exact max_eq_right (by linarith)

/-- C2 witness: a top set of 12 reps @ RIR 2 under HYPERTROPHY is
in-top-of-range, and a planned weight of 100 is adjusted to 102.5. -/
theorem c2_witness :
    adjustPlannedWeight TrainingGoal.HYPERTROPHY ⟨100, 12, 2⟩ 100 =
      100 + roundIncrement :=
  (c2_adjustment TrainingGoal.HYPERTROPHY ⟨100, 12, 2⟩ 100).2.2.2.2
    (by norm_num) top_12_2_H

/-- C2 counterexample: a valid exercise (weight 1 lb, 8 reps @ RIR 2,
HYPERTROPHY) is neither in-top-of-range nor below-range, its planned
weight rounds to 0, and the engine prescribes three sets of weight 0 —
a non-positive prescribed weight, contradicting the claim's final clause. -/
theorem c2_counterexample :
    ((planNextSession
        ⟨none, none, some TrainingGoal.HYPERTROPHY,
          [⟨none, "Bench Press", none, [⟨1, 8, some 2⟩]⟩]⟩
        (some WeightUnit.lbs) 0).newWorkout.exerciseInstances.map
      fun r => r.recommendedSets.map RecommendedSet.weight) = [[0, 0, 0]] := by
  have han := analyzeExercise_some ⟨none, "Bench Press", none, [⟨1, 8, some 2⟩]⟩
    ⟨1, 8, 2⟩ selectTopSet_single_1
  have hbase_ne :
      ¬ (analyzeExercise ⟨none, "Bench Press", none,
          [⟨1, 8, some 2⟩]⟩).currentBaseline = 0 := by
    rw [han]
    show ¬ e1rmPerceived 1 8 2 NSCA_BASE_ROW perRirDropPct = 0
    rw [e1rmPerceived_1_8_2]
    norm_num
  have htopset :
      (analyzeExercise ⟨none, "Bench Press", none,
        [⟨1, 8, some 2⟩]⟩).topSet = some ⟨1, 8, 2⟩ := by
    rw [han]
  have hrec := recommendExercise_some TrainingGoal.HYPERTROPHY WeightUnit.lbs
    (analyzeExercise ⟨none, "Bench Press", none, [⟨1, 8, some 2⟩]⟩)
    ⟨1, 8, 2⟩ htopset hbase_ne
  have hbaseval :
      (analyzeExercise ⟨none, "Bench Press", none,
        [⟨1, 8, some 2⟩]⟩).currentBaseline = 500 / 391 := by
    rw [han]
    exact e1rmPerceived_1_8_2
  have hplan :
      plannedWeightBase TrainingGoal.HYPERTROPHY
        ((analyzeExercise ⟨none, "Bench Press", none,
          [⟨1, 8, some 2⟩]⟩).currentBaseline) = 0 := by
    rw [hbaseval, plannedWeightBase_eq]
    rw [show (ZONE_PRESETS TrainingGoal.HYPERTROPHY).defaultReps = 8 from rfl,
      show (10 - (ZONE_PRESETS TrainingGoal.HYPERTROPHY).targetRIR : ℚ) = 10 - 2 from rfl,
      show getPercentFromRPETable 8 (10 - 2) = getPercentFromRPETable 8 8 from by norm_num,
      getPercent_8_8]
    norm_num [roundIncrement, jsRound]
  have hadj : adjustPlannedWeight TrainingGoal.HYPERTROPHY ⟨1, 8, 2⟩ 0 = 0 :=
    adjustPlannedWeight_of_neither 0 top_8_2_H below_8_2_H
  have hw : toFixed2 (finalWeight WeightUnit.lbs
      (adjustPlannedWeight TrainingGoal.HYPERTROPHY ⟨1, 8, 2⟩
        (plannedWeightBase TrainingGoal.HYPERTROPHY
          ((analyzeExercise ⟨none, "Bench Press", none,
            [⟨1, 8, some 2⟩]⟩).currentBaseline)))) = 0 := by
    rw [hplan, hadj, finalWeight_lbs_0]
    norm_num [toFixed2, jsRound]
  simp only [planNextSession, Option.getD_some, List.map_cons, List.map_nil]
  rw [hrec]
  simp only [recommendedSetAt, List.map_cons, List.map_nil,
    show List.range (ZONE_PRESETS TrainingGoal.HYPERTROPHY).sets = [0, 1, 2] from rfl]
  rw [hw]

/-- C3: with the working unit kilograms, the final prescribed weight is
the planned weight converted to pounds at 2.2046226218, rounded to the
nearest 2.5 lbs, and converted back; and at 50 kg this differs from
rounding directly to the nearest 2.5 in kilograms. -/
theorem c3_kg_rounding :
    (∀ w : ℚ, finalWeight WeightUnit.kg w =
      (jsRound (w * KG_TO_LB / 2.5) : ℚ) * 2.5 / KG_TO_LB) ∧
    finalWeight WeightUnit.kg 50 ≠ (jsRound ((50 : ℚ) / 2.5) : ℚ) * 2.5 := by
  have huniv : ∀ w : ℚ, finalWeight WeightUnit.kg w =
      (jsRound (w * KG_TO_LB / 2.5) : ℚ) * 2.5 / KG_TO_LB := by
    intro w
    norm_num [finalWeight, fromLbs, toLbs, roundToNearest25lbs]
  refine ⟨huniv, ?_⟩
  rw [huniv 50]
  norm_num [KG_TO_LB, jsRound]

/-- C4 counterexample: contrary to the claim, `isInTopOfRange` and
`isBelowRange` are never simultaneously true: top-of-range needs
`reps ≥ high ∧ RIR ≤ targetRIR` while below-range needs `reps < low ∨
RIR > targetRIR + 1`, and `low ≤ high`, `targetRIR < targetRIR + 1` for
every goal. -/
theorem c4_counterexample :
    ¬ ∃ (reps RIR : ℚ) (goal : TrainingGoal),
      isInTopOfRange reps RIR goal = true ∧ isBelowRange reps RIR goal = true := by
  rintro ⟨reps, RIR, goal, h1, h2⟩
  exact top_below_exclusive reps RIR goal ⟨h1, h2⟩

/-- C4 (amended): the two classification predicates are mutually
exclusive by construction — their conjunction is false for every
`(reps, RIR)` pair and every goal. -/
theorem c4_mutually_exclusive (reps RIR : ℚ) (goal : TrainingGoal) :
    (isInTopOfRange reps RIR goal && isBelowRange reps RIR goal) = false := by
  cases htop : isInTopOfRange reps RIR goal with
  | false => rw [Bool.false_and]
  | true =>
    cases hbelow : isBelowRange reps RIR goal with
    | false => rw [Bool.and_false]
    | true => exact absurd ⟨htop, hbelow⟩ (top_below_exclusive reps RIR goal)

/-- C5 counterexample: the POST calculation reads the ambient clock for
the emitted `date` field, so two calls with identical payload and unit
made on different days produce different outputs. -/
theorem c5_counterexample :
    planNextSession ⟨none, none, none, []⟩ (some WeightUnit.lbs) 0 ≠
      planNextSession ⟨none, none, none, []⟩ (some WeightUnit.lbs) 1 := by
  intro h
  have h2 := congrArg (fun r => r.newWorkout.date) h
  simp only [planNextSession] at h2
  omega

/-- C5 (amended): the calculation is a pure function of the payload, the
unit and the clock: with the clock fixed it is deterministic, and every
output component except the emitted `date` (which is clock + 1) is
independent of the clock. -/
theorem c5_deterministic (pw : PreviousWorkout) (u : Option WeightUnit)
    (t1 t2 : ℕ) :
    planNextSession pw u t1 = planNextSession pw u t1 ∧
    (planNextSession pw u t1).newWorkout.exerciseInstances =
      (planNextSession pw u t2).newWorkout.exerciseInstances ∧
    (planNextSession pw u t1).details = (planNextSession pw u t2).details ∧
    (planNextSession pw u t1).newWorkout.split =
      (planNextSession pw u t2).newWorkout.split ∧
    (planNextSession pw u t1).newWorkout.goal =
      (planNextSession pw u t2).newWorkout.goal ∧
    (planNextSession pw u t1).newWorkout.status =
      (planNextSession pw u t2).newWorkout.status ∧
    (planNextSession pw u t1).newWorkout.date = t1 + 1 :=
  ⟨rfl, rfl, rfl, rfl, rfl, rfl, rfl⟩

/-- C6: the table lookup clamps reps to `[1, 12]` (after rounding) and
RPE to `[6.5, 10]`, then returns the stored percentage of the clamped rep
row at the nearest RPE key, breaking equidistant ties toward the higher
key; on the native domain it returns exactly the stored percentage, and
any RPE above 10 behaves as RPE = 10. -/
theorem c6_nearest_neighbor (reps rpe : ℚ) :
    (∃ k ∈ KEYS,
      getPercentFromRPETable reps rpe = tableAt (clampReps reps) k ∧
      (∀ j ∈ KEYS, |clampRPE rpe - k| ≤ |clampRPE rpe - j|) ∧
      (∀ j ∈ KEYS, |clampRPE rpe - j| = |clampRPE rpe - k| → j ≤ k)) ∧
    (∀ n : ℤ, 1 ≤ n → n ≤ 12 → reps = (n : ℚ) → rpe ∈ KEYS →
      getPercentFromRPETable reps rpe = tableAt reps rpe) ∧
    (10 < rpe → getPercentFromRPETable reps rpe = getPercentFromRPETable reps 10) := by
  refine ⟨?_, ?_, ?_⟩
  · obtain ⟨k, hk, h1, -, h3, h4⟩ := getPercent_master reps rpe
    exact ⟨k, hk, h1, h3, h4⟩
  · rintro n h1 h12 rfl hrpe
    exact getPercent_native n h1 h12 hrpe
  · intro h
    refine getPercent_congr reps ?_
    rw [clampRPE_of_gt10 h]
    norm_num [clampRPE]

/-- C6 witness: the native entry at reps 12, RPE 9.5 is returned exactly,
and RPE 11 behaves as RPE 10 at reps 3. -/
theorem c6_witness :
    getPercentFromRPETable 12 9.5 = tableAt 12 9.5 ∧
    getPercentFromRPETable 3 11 = getPercentFromRPETable 3 10 :=
  ⟨(c6_nearest_neighbor 12 9.5).2.1 12 (by norm_num) (by norm_num) (by norm_num)
      (by norm_num [KEYS, List.mem_cons]),
   (c6_nearest_neighbor 3 11).2.2 (by norm_num)⟩

/-- C7: a selected top set is the first logged set attaining the maximal
Epley score (strictly greater than every earlier set's score, at least
every later one's); an exercise with no sets gets a null analysis and the
null prescription; and the engine still processes every exercise (the
output has one recommendation per input exercise). -/
theorem c7_top_set_selection :
    (∀ (l : List PreviousSet) (t : TopSet), selectTopSet l = some t →
      ∃ l1 s l2, l = l1 ++ s :: l2 ∧ t = withRir s ∧
        (∀ u ∈ l1, epleyOf (withRir u) < epleyOf t) ∧
        (∀ u ∈ l2, epleyOf (withRir u) ≤ epleyOf t)) ∧
    (∀ ex : PreviousExerciseInstance, ex.sets = [] →
      (analyzeExercise ex).topSet = none ∧
      ∀ (goal : TrainingGoal) (unit : WeightUnit),
        recommendExercise goal unit (analyzeExercise ex) =
          nullRecommendation goal (analyzeExercise ex)) ∧
    (∀ (pw : PreviousWorkout) (u : Option WeightUnit) (today : ℕ),
      (planNextSession pw u today).newWorkout.exerciseInstances.length =
        pw.exerciseInstances.length) := by
  refine ⟨?_, ?_, ?_⟩
  · intro l t hsel
    rcases selectTopSet_spec l with ⟨hnone, -⟩ | ⟨t', hsel', l1, s, l2, heq, ht, -, hpre, hsuf⟩
    · rw [hsel] at hnone
      cases hnone
    · have : t' = t := Option.some.inj (hsel'.symm.trans hsel)
      subst this
      exact ⟨l1, s, l2, heq, ht, hpre, hsuf⟩
  · intro ex hempty
    have hsel : selectTopSet ex.sets = none := by
      rw [hempty]
      rfl
    have han := analyzeExercise_none ex hsel
    refine ⟨by rw [han], ?_⟩
    intro goal unit
    exact recommendExercise_none goal unit _ (by rw [han])
  · intro pw u today
    simp [planNextSession]

/-- C7 witness: the theorem applied to the singleton set list 185 × 5 @
RIR 2, whose selected top set is the set itself. -/
theorem c7_witness :
    ∃ l1 s l2, ([⟨185, 5, some 2⟩] : List PreviousSet) = l1 ++ s :: l2 ∧
      (⟨185, 5, 2⟩ : TopSet) = withRir s ∧
      (∀ u ∈ l1, epleyOf (withRir u) < epleyOf (⟨185, 5, 2⟩ : TopSet)) ∧
      (∀ u ∈ l2, epleyOf (withRir u) ≤ epleyOf (⟨185, 5, 2⟩ : TopSet)) :=
  c7_top_set_selection.1 [⟨185, 5, some 2⟩] ⟨185, 5, 2⟩ selectTopSet_single_185

/-- C8: the performance estimator is `weight × (1 + (reps + RIR) / 30)`
verbatim — no clamping of inputs or output — and is monotone
non-decreasing in reps and in RIR for every fixed positive weight. -/
theorem c8_performance_monotone :
    (∀ w r1 r2 rir : ℚ, 0 < w → r1 ≤ r2 →
      e1rmPerformance w r1 rir ≤ e1rmPerformance w r2 rir) ∧
    (∀ w r rir1 rir2 : ℚ, 0 < w → rir1 ≤ rir2 →
      e1rmPerformance w r rir1 ≤ e1rmPerformance w r rir2) ∧
    (∀ w r rir : ℚ, e1rmPerformance w r rir = w * (1 + (r + rir) / 30)) := by
  refine ⟨?_, ?_, fun w r rir => rfl⟩
  · intro w r1 r2 rir hw h
    unfold e1rmPerformance
    have hle : 1 + (r1 + rir) / 30 ≤ 1 + (r2 + rir) / 30 := by linarith
    exact mul_le_mul_of_nonneg_left hle hw.le
  · intro w r rir1 rir2 hw h
    unfold e1rmPerformance
    have hle : 1 + (r + rir1) / 30 ≤ 1 + (r + rir2) / 30 := by linarith
    exact mul_le_mul_of_nonneg_left hle hw.le

/-- C8 witness: monotonicity in reps at weight 100, reps 5 ≤ 6, RIR 2. -/
theorem c8_witness : e1rmPerformance 100 5 2 ≤ e1rmPerformance 100 6 2 :=
  c8_performance_monotone.1 100 5 6 2 (by norm_num) (by norm_num)

/-- C9: at weight 185, reps 5, RIR 2 the performance estimator returns
exactly `185 × (1 + 7/30)`, and the perceived estimator resolves RPE 8 to
the base-row key 8 (92.2%), subtracts `4 × 2.0` to reach 84.2% and
returns `185 / 84.2 × 100 = 92500/421 ≈ 219.71`. -/
theorem c9_scenario :
    e1rmPerformance 185 5 2 = 185 * (1 + 7 / 30) ∧
    closestRPEKey (clampRPE (10 - 2)) (sortDesc (NSCA_BASE_ROW.map Prod.fst)) =
      some 8 ∧
    lookupQ 8 NSCA_BASE_ROW = some 92.2 ∧
    e1rmPerceived 185 5 2 NSCA_BASE_ROW 2 = 185 / (92.2 - 4 * 2.0) * 100 ∧
    e1rmPerceived 185 5 2 NSCA_BASE_ROW 2 = 92500 / 421 := by
  have hkey : closestRPEKey (clampRPE (10 - 2))
      (sortDesc (NSCA_BASE_ROW.map Prod.fst)) = some 8 := by
    rw [show NSCA_BASE_ROW.map Prod.fst = KEYS from rfl, sortDesc_KEYS,
      closestRPEKey_KEYS, clampRPE_8, foldBest_KEYS_self mem_KEYS_8]
  have hval : e1rmPerceived 185 5 2 NSCA_BASE_ROW 2 = 185 / (92.2 - 4 * 2.0) * 100 := by
    rw [e1rmPerceived_NSCA, clampRPE_8, foldBest_KEYS_self mem_KEYS_8, lookupQ_NSCA_8]
    norm_num
  refine ⟨by norm_num [e1rmPerformance], hkey, lookupQ_NSCA_8, hval, ?_⟩
  rw [hval]
  norm_num

/-- C10: for every real input pair the lookup returns a value stored in
the RPE table, hence always within `[58.6, 100]`; the 75% fallback
branches are unreachable. -/
theorem c10_always_stored (reps rpe : ℚ) :
    (∃ p ∈ RPE_TABLE, ∃ e ∈ p.2, getPercentFromRPETable reps rpe = e.2) ∧
    58.6 ≤ getPercentFromRPETable reps rpe ∧
    getPercentFromRPETable reps rpe ≤ 100 := by
  obtain ⟨k, hk, -, ⟨p, hp, hmem⟩, -, -⟩ := getPercent_master reps rpe
  have hb := table_bounds p hp _ hmem
  exact ⟨⟨p, hp, (k, getPercentFromRPETable reps rpe), hmem, rfl⟩, hb.1, hb.2⟩
